import Mathlib

/-!
Verification development for a Common Crawl retrieval pipeline
(`proxy.py` / `main.py`).  The Python code is shallowly embedded:

* network I/O (`requests.get`) is an explicit oracle passed to every
  operation, returning either a response value or a raised exception;
* Python dictionaries become association lists of string pairs;
* fallible Python operations (`d[k]`, `int(s)`, `json.loads`) return
  `Except PyErr`;
* `bytes.decode("utf-8", errors="ignore")` is a full UTF-8 decoder over
  byte lists that drops invalid subsequences (the `replace` variant,
  used only to state a spec contrast, substitutes U+FFFD).
-/

namespace CC

/-- Python exception values that the embedded code can raise. -/
inductive PyErr where
  | keyError (k : String)
  | valueError (m : String)
  | typeError (m : String)
  | connectionError (m : String)
  deriving Repr, DecidableEq

/-- True exactly on `Except.error`. -/
def isErr {ε α : Type} : Except ε α → Bool
  | .error _ => true
  | .ok _ => false

instance {ε α : Type} [DecidableEq ε] [DecidableEq α] :
    DecidableEq (Except ε α) := fun x y =>
  match x, y with
  | .error a, .error b =>
    if h : a = b then .isTrue (by rw [h])
    else .isFalse (fun hc => h (Except.error.injEq a b ▸ hc))
  | .ok a, .ok b =>
    if h : a = b then .isTrue (by rw [h])
    else .isFalse (fun hc => h (Except.ok.injEq a b ▸ hc))
  | .error _, .ok _ => .isFalse (fun hc => Except.noConfusion hc)
  | .ok _, .error _ => .isFalse (fun hc => Except.noConfusion hc)

/-- Whitespace characters stripped by Python `str.strip()`. -/
def isPyWs (c : Char) : Bool :=
  c = ' ' || c = '\t' || c = '\n' || c = '\r' || c = '\x0b' || c = '\x0c'

/-- Python `str.strip()`: drop leading and trailing whitespace. -/
def pyStrip (s : String) : String :=
  ⟨((s.data.dropWhile isPyWs).reverse.dropWhile isPyWs).reverse⟩

/-- Splitting a character list at every occurrence of `sep`, keeping empty
fields (never returns an empty list). -/
def splitOnChar (sep : Char) : List Char → List (List Char)
  | [] => [[]]
  | c :: rest =>
    if c = sep then [] :: splitOnChar sep rest
    else
      match splitOnChar sep rest with
      | h :: t => (c :: h) :: t
      | [] => [[c]]

/-- Python `str.split(sep)` (keeps empty fields).  Both call sites of the
source split on a single character (`"\n"` and `"/"`), so the separator
is modelled as a character. -/
def pySplit (s : String) (sep : Char) : List String :=
  (splitOnChar sep s.data).map (fun l => (⟨l⟩ : String))

/-- Digit-string value; `none` when a non-digit occurs or the list is empty. -/
def digitsVal : List Char → Option Nat
  | [] => none
  | [c] => if c.isDigit then some (c.toNat - 48) else none
  | c :: rest =>
    if c.isDigit then
      match digitsVal rest with
      | some n => some ((c.toNat - 48) * 10 ^ rest.length + n)
      | none => none
    else none

/-- Python `int(s)` on a string: strips whitespace, accepts an optional
sign followed by decimal digits, raises `ValueError` otherwise.
(Underscore digit separators, accepted by CPython, are not modelled;
no input in this development uses them.) -/
def pyToInt (s : String) : Except PyErr Int :=
  let t := (pyStrip s).data
  match t with
  | c :: rest =>
    if c = '-' then
      match digitsVal rest with
      | some n => .ok (-(n : Int))
      | none => .error (.valueError ("invalid literal for int: " ++ s))
    else if c = '+' then
      match digitsVal rest with
      | some n => .ok (n : Int)
      | none => .error (.valueError ("invalid literal for int: " ++ s))
    else
      match digitsVal t with
      | some n => .ok (n : Int)
      | none => .error (.valueError ("invalid literal for int: " ++ s))
  | [] => .error (.valueError ("invalid literal for int: " ++ s))

/-- A parsed JSON object with string keys and string values, the shape of
both the index-catalog descriptors and the per-capture metadata lines. -/
abbrev Obj : Type := List (String × String)

/-- Python `k in d` / `d.get(k)` on a dict: first binding of `k`. -/
def lookupStr (d : Obj) (k : String) : Option String :=
  (d.find? (fun p => p.1 == k)).map (fun p => p.2)

/-- Python `d[k]` on a dict: raises `KeyError` when the key is absent. -/
def pyGetItem (d : Obj) (k : String) : Except PyErr String :=
  match lookupStr d k with
  | some v => .ok v
  | none => .error (.keyError k)

/-- Success of `pyGetItem` is exactly presence of the key. -/
lemma pyGetItem_ok_iff {d : Obj} {k v : String} :
    pyGetItem d k = .ok v ↔ lookupStr d k = some v := by
  unfold pyGetItem
  cases lookupStr d k <;> simp

/-- JSON insignificant whitespace. -/
def isJsonWs (c : Char) : Bool :=
  c = ' ' || c = '\t' || c = '\n' || c = '\r'

/-- Skip insignificant whitespace. -/
def skipWs (cs : List Char) : List Char :=
  cs.dropWhile isJsonWs

/-- Read the remainder of a JSON string after its opening quote; returns the
string and the input past the closing quote.  Backslash escapes are not
modelled (the embedded data never contains them); encountering one is a
parse error. -/
def readJStr : List Char → Except PyErr (String × List Char)
  | [] => .error (.valueError ("Unterminated string"))
  | c :: rest =>
    if c = Char.ofNat 34 then .ok ("", rest)
    else if c = Char.ofNat 92 then .error (.valueError ("unsupported escape"))
    else
      match readJStr rest with
      | .ok (s, r) => .ok (⟨c :: s.data⟩, r)
      | .error e => .error e

/-- Parse the members of a JSON object after its opening brace, for the flat
string-keyed, string-valued objects that the index endpoints return (any
other JSON shape is rejected as malformed).  `fuel` only bounds recursion;
it is instantiated large enough never to run out. -/
def parseMembers : Nat → List Char → Obj → Except PyErr Obj
  | 0, _, _ => .error (.valueError ("Expecting value"))
  | fuel + 1, cs, acc =>
    match skipWs cs with
    | c :: r1 =>
      if c = Char.ofNat 34 then
        match readJStr r1 with
        | .error e => .error e
        | .ok (k, r2) =>
          match skipWs r2 with
          | c2 :: r3 =>
            if c2 = ':' then
              match skipWs r3 with
              | c3 :: r4 =>
                if c3 = Char.ofNat 34 then
                  match readJStr r4 with
                  | .error e => .error e
                  | .ok (v, r5) =>
                    match skipWs r5 with
                    | c4 :: r6 =>
                      if c4 = ',' then parseMembers fuel r6 (acc ++ [(k, v)])
                      else if c4 = '\x7d' then
                        if skipWs r6 = [] then .ok (acc ++ [(k, v)])
                        else .error (.valueError ("Extra data"))
                      else .error (.valueError ("Expecting delimiter"))
                    | [] => .error (.valueError ("Expecting delimiter"))
                else .error (.valueError ("Expecting value"))
              | [] => .error (.valueError ("Expecting value"))
            else .error (.valueError ("Expecting colon delimiter"))
          | [] => .error (.valueError ("Expecting colon delimiter"))
      else .error (.valueError ("Expecting property name"))
    | [] => .error (.valueError ("Expecting property name"))

/-- Python `json.loads` restricted to the flat string-valued objects emitted
by the index endpoints; every other input raises (as CPython's
`json.JSONDecodeError`, a `ValueError`). -/
def jsonLoads (s : String) : Except PyErr Obj :=
  match skipWs s.data with
  | c :: r =>
    if c = '\x7b' then
      match skipWs r with
      | c2 :: r2 =>
        if c2 = '\x7d' then
          if skipWs r2 = [] then .ok []
          else .error (.valueError ("Extra data"))
        else parseMembers (s.length + 1) r []
      | [] => .error (.valueError ("Expecting property name"))
    else .error (.valueError ("Expecting value"))
  | [] => .error (.valueError ("Expecting value"))

/-- A UTF-8 continuation byte. -/
def isCont (b : Nat) : Bool := 128 ≤ b && b ≤ 191

/-- Allowed range of the first continuation byte of a 3-byte sequence
(excludes overlong encodings and surrogates, as CPython does). -/
def cont3Ok (b c : Nat) : Bool :=
  if b = 224 then 160 ≤ c && c ≤ 191
  else if b = 237 then 128 ≤ c && c ≤ 159
  else isCont c

/-- Allowed range of the first continuation byte of a 4-byte sequence. -/
def cont4Ok (b c : Nat) : Bool :=
  if b = 240 then 144 ≤ c && c ≤ 191
  else if b = 244 then 128 ≤ c && c ≤ 143
  else isCont c

/-- What a decode error contributes: U+FFFD under `errors="replace"`,
nothing under `errors="ignore"`. -/
def errCh (repl : Bool) : List Char :=
  if repl then [Char.ofNat 65533] else []

/-- UTF-8 decoding of a byte list with CPython's error handling: on an
invalid sequence the maximal valid subpart is consumed as one error and
decoding resumes at the next byte.  `repl = true` models
`errors="replace"`, `repl = false` models `errors="ignore"`. -/
def utf8Dec (repl : Bool) : List Nat → List Char
  | [] => []
  | b :: rest =>
    if b < 128 then Char.ofNat b :: utf8Dec repl rest
    else if 194 ≤ b && b ≤ 223 then
      match rest with
      | c :: r2 =>
        if isCont c then
          Char.ofNat ((b - 192) * 64 + (c - 128)) :: utf8Dec repl r2
        else errCh repl ++ utf8Dec repl (c :: r2)
      | [] => errCh repl
    else if 224 ≤ b && b ≤ 239 then
      match rest with
      | c1 :: r2 =>
        if cont3Ok b c1 then
          match r2 with
          | c2 :: r3 =>
            if isCont c2 then
              Char.ofNat ((b - 224) * 4096 + (c1 - 128) * 64 + (c2 - 128)) ::
                utf8Dec repl r3
            else errCh repl ++ utf8Dec repl (c2 :: r3)
          | [] => errCh repl
        else errCh repl ++ utf8Dec repl (c1 :: r2)
      | [] => errCh repl
    else if 240 ≤ b && b ≤ 244 then
      match rest with
      | c1 :: r2 =>
        if cont4Ok b c1 then
          match r2 with
          | c2 :: r3 =>
            if isCont c2 then
              match r3 with
              | c3 :: r4 =>
                if isCont c3 then
                  Char.ofNat ((b - 240) * 262144 + (c1 - 128) * 4096 +
                    (c2 - 128) * 64 + (c3 - 128)) :: utf8Dec repl r4
                else errCh repl ++ utf8Dec repl (c3 :: r4)
              | [] => errCh repl
            else errCh repl ++ utf8Dec repl (c2 :: r3)
          | [] => errCh repl
        else errCh repl ++ utf8Dec repl (c1 :: r2)
      | [] => errCh repl
    else errCh repl ++ utf8Dec repl rest

/-- Python `bytes.decode("utf-8", errors="ignore")`: invalid subsequences are
dropped. -/
def pyDecodeIgnore (l : List Nat) : String := ⟨utf8Dec false l⟩

/-- Decoding "with invalid byte sequences replaced", following the spec's
wording for the fetch operation; stated only to contrast with the code's
`errors="ignore"` behaviour (`pyDecodeIgnore`). -/
def specDecodeReplace (l : List Nat) : String := ⟨utf8Dec true l⟩

/-- UTF-8 encoding of one character (code points are valid `Char`s, so the
four standard cases suffice). -/
def utf8EncChar (c : Char) : List Nat :=
  let n := c.toNat
  if n < 128 then [n]
  else if n < 2048 then [192 + n / 64, 128 + n % 64]
  else if n < 65536 then
    [224 + n / 4096, 128 + n / 64 % 64, 128 + n % 64]
  else
    [240 + n / 262144, 128 + n / 4096 % 64, 128 + n / 64 % 64, 128 + n % 64]

/-- UTF-8 encoding of a string as a byte list. -/
def utf8Enc (s : String) : List Nat :=
  s.data.flatMap utf8EncChar

/-- Characters never quoted by `urllib.parse.quote_plus` (ASCII letters,
digits, `_.-~`). -/
def quoteSafe (b : Nat) : Bool :=
  (48 ≤ b && b ≤ 57) || (65 ≤ b && b ≤ 90) || (97 ≤ b && b ≤ 122) ||
    b = 95 || b = 46 || b = 45 || b = 126

/-- Upper-case hex digit of a value below 16. -/
def hexDigit (n : Nat) : Char :=
  if n < 10 then Char.ofNat (48 + n) else Char.ofNat (55 + n)

/-- Python `urllib.parse.quote_plus`: encode the string as UTF-8, keep safe bytes,
turn spaces into `+`, percent-encode everything else. -/
def quotePlus (s : String) : String :=
  ⟨(utf8Enc s).flatMap (fun b =>
    if quoteSafe b then [Char.ofNat b]
    else if b = 32 then ['+']
    else ['%', hexDigit (b / 16), hexDigit (b % 16)])⟩

/-! ## Data model and network oracles -/

/-- Configuration (`CCProxyConfig`): client identity, two-digit target month, and the year
range `range(lo, hi)` (half-open, as Python's `range`).  The save path is
irrelevant to the embedded operations. -/
structure Config where
  agent_decl : String
  target_month : String
  yr_lo : Int
  yr_hi : Int
  deriving Repr, DecidableEq

/-- Python `year in cfg.year_range` for `range(lo, hi)`. -/
def inRange (cfg : Config) (y : Int) : Bool :=
  cfg.yr_lo ≤ y && y < cfg.yr_hi

/-- Response of the index-lookup endpoint (`_query`'s `requests.get`). -/
structure QResp where
  status_code : Nat
  text : String
  deriving Repr, DecidableEq

/-- One record yielded by `warcio.ArchiveIterator` over the range response:
a declared record type and the bytes of `content_stream().read()`. -/
structure WRecord where
  rec_type : String
  content : List Nat
  deriving Repr, DecidableEq

/-- Response of a byte-range request against the archive storage.  The
`records` are the WARC records the iterator yields in stream order;
`truncated` marks a malformed container that makes the iterator raise
after those records (the per-candidate handler catches that raise, so a
truncated stream behaves exactly like a clean stream with the same
records and no response-type record among the rest). -/
structure RangeResp where
  status_code : Nat
  records : List WRecord
  truncated : Bool
  deriving Repr, DecidableEq

/-- Response of the catalog endpoint: status plus the value of
`response.json()`, a list of descriptor objects. -/
structure CollResp where
  status_code : Nat
  body : List Obj
  deriving Repr, DecidableEq

/-- Network oracle for the index-lookup endpoint, keyed by the full request
URL; `.error` models `requests.get` raising. -/
abbrev QEnv := String → Except PyErr QResp

/-- Network oracle for the archive storage, keyed by storage URL and
`Range` header value. -/
abbrev FEnv := String → String → Except PyErr RangeResp

/-- The external text-extraction collaborator
(`BeautifulSoup(page).get_text(strip=True, separator=" ")`); `.error`
models the parser raising. -/
abbrev Extract := String → Except PyErr String

/-- Server base URL, `self.server` in `CCProxy.__init__`. -/
def server : String := "http://index.commoncrawl.org"

/-! ## `CCProxy._init_idxs` -/

/-- Outcome of `_init_idxs`: normal return of the year → index-id mapping,
`exit(code)`, or an uncaught exception. -/
inductive InitResult where
  | exited (code : Nat)
  | raised (e : PyErr)
  | ok (sel : List (Int × String))
  deriving Repr, DecidableEq

/-- Python `year in idxs` and `idxs[year]` on the insertion-ordered dict `idxs`. -/
def lookupA (l : List (Int × String)) (y : Int) : Option String :=
  (l.find? (fun p => p.1 == y)).map (fun p => p.2)

/-- One iteration of the `for c in crawls` loop of `_init_idxs`, threading
the `idxs` dict as an insertion-ordered association list: `c["id"]`
(raising `KeyError` if absent), the `"timegate" in c` guard, the start
date before the first `/`, the 7-character length guard, `int` of the
year digits (raising `ValueError` if unparseable), and selection when the
month matches, the year is in range, and the year is not yet selected. -/
def selectStep (cfg : Config) (c : Obj) (acc : List (Int × String)) :
    Except PyErr (List (Int × String)) :=
  match pyGetItem c ("id") with
  | .error e => .error e
  | .ok id0 =>
    match lookupStr c ("timegate") with
    | none => .ok acc
    | some tg =>
      let start_date := (pySplit tg ('/')).headD ("")
      if 7 ≤ start_date.length then
        let year_month := start_date.take 7
        match pyToInt (year_month.take 4) with
        | .error e => .error e
        | .ok year =>
          let month := year_month.drop 5
          if month == cfg.target_month && inRange cfg year &&
              (lookupA acc year).isNone then
            .ok (acc ++ [(year, id0)])
          else .ok acc
      else .ok acc

/-- The `for c in crawls` loop of `_init_idxs`: the step above applied to
each descriptor in order, the first exception propagating. -/
def selectLoop (cfg : Config) : List Obj → List (Int × String) →
    Except PyErr (List (Int × String))
  | [], acc => .ok acc
  | c :: rest, acc =>
    match selectStep cfg c acc with
    | .error e => .error e
    | .ok acc2 => selectLoop cfg rest acc2

/-- Operation `CCProxy._init_idxs`: a raised catalog request exits the process with
code 1; otherwise a 200 response's JSON body is scanned by the selection
loop (any other status leaves `crawls` empty), and an exception from the
loop propagates. -/
def init_idxs (cfg : Config) (cenv : Except PyErr CollResp) : InitResult :=
  match cenv with
  | .error _ => .exited 1
  | .ok response =>
    let crawls : List Obj :=
      if response.status_code = 200 then response.body else []
    match selectLoop cfg crawls [] with
    | .ok idxs => .ok idxs
    | .error e => .raised e

/-! ## `CCProxy._query` -/

/-- The index-lookup request URL built by `_query`. -/
def indexUrl (url idx : String) : String :=
  server ++ "/" ++ idx ++ "-index?url=" ++ quotePlus url ++ "&output=json"

/-- The list comprehension `[json.loads(record) for record in records]`:
lines are parsed in order and the first parse error propagates. -/
def parseLines : List String → Except PyErr (List Obj)
  | [] => .ok []
  | l :: rest =>
    match jsonLoads l with
    | .error e => .error e
    | .ok obj =>
      match parseLines rest with
      | .error e => .error e
      | .ok objs => .ok (obj :: objs)

/-- Operation `CCProxy._query`: on status 200 the body is stripped, split on
newlines, and each line JSON-parsed; any other status returns `None`.
A raised request or a parse error propagates to the caller. -/
def query (qenv : QEnv) (url idx : String) :
    Except PyErr (Option (List Obj)) :=
  match qenv (indexUrl url idx) with
  | .error e => .error e
  | .ok response =>
    if response.status_code = 200 then
      match parseLines (pySplit (pyStrip response.text) ('\n')) with
      | .error e => .error e
      | .ok objs => .ok (some objs)
    else .ok none

/-! ## `CCProxy._fetch` -/

/-- The per-candidate preamble of `_fetch`, in source evaluation order:
`int(record["offset"])`, `int(record["length"])`, `record['filename']`,
then the storage URL and the `Range` header value.  Each step raises
exactly where the Python does (before the per-candidate `try`). -/
def candFields (r : Obj) : Except PyErr (String × String) :=
  match pyGetItem r ("offset") with
  | .error e => .error e
  | .ok offS =>
    match pyToInt offS with
    | .error e => .error e
    | .ok off =>
      match pyGetItem r ("length") with
      | .error e => .error e
      | .ok lenS =>
        match pyToInt lenS with
        | .error e => .error e
        | .ok len =>
          match pyGetItem r ("filename") with
          | .error e => .error e
          | .ok fname =>
            .ok ("https://data.commoncrawl.org/" ++ fname,
              "bytes=" ++ toString off ++ "-" ++ toString (off + len - 1))

/-- The `for warc_record in stream` scan: content of the first record whose
type is `response`, if any. -/
def scanStream : List WRecord → Option (List Nat)
  | [] => none
  | w :: rest =>
    if w.rec_type = "response" then some w.content else scanStream rest

/-- Operation `CCProxy._fetch`, additionally returning the log of byte-range requests
issued (storage URL, `Range` value) so that "no further requests" claims
are statable.  Per candidate: field extraction (which may raise), the
range request (which may raise), the 206 guard, and the stream scan;
a caught iterator error or a stream without a response record falls
through to the next candidate. -/
def fetch (fenv : FEnv) :
    List Obj → Except PyErr (Option String × List (String × String))
  | [] => .ok (none, [])
  | r :: rest =>
    match candFields r with
    | .error e => .error e
    | .ok (s3_url, byte_range) =>
      match fenv s3_url byte_range with
      | .error e => .error e
      | .ok response =>
        if response.status_code = 206 then
          match scanStream response.records with
          | some body =>
            .ok (some (pyDecodeIgnore body), [(s3_url, byte_range)])
          | none =>
            match fetch fenv rest with
            | .error e => .error e
            | .ok (res, log) => .ok (res, (s3_url, byte_range) :: log)
        else
          match fetch fenv rest with
          | .error e => .error e
          | .ok (res, log) => .ok (res, (s3_url, byte_range) :: log)

/-! ## `CCProxy.build_records` -/

/-- A polars DataFrame as `build_records` uses it: a schema and rows. -/
structure PolarsDF where
  schema : List String
  rows : List (List String)
  deriving Repr, DecidableEq

/-- Empty frame `pl.DataFrame(schema=["url", "content"])`. -/
def emptyDF : PolarsDF := ⟨["url", "content"], []⟩

/-- Assignment `df[key] = value` on a polars DataFrame.  Polars (0.19 and later, the
era of this repository) does not support assignment through
`__setitem__` with a string key: the call raises `TypeError` directing
the user to `with_columns`.  (Even the long-removed legacy behaviour set
a *column* named by the key; no polars version appends a `(url, content)`
row here.) -/
def dfSetitem (_df : PolarsDF) (_k _v : String) : Except PyErr PolarsDF :=
  .error (.typeError
    ("DataFrame object does not support Series assignment; use with_columns"))

/-- The body of `build_records` for one URL `u` of one year: `_query`,
the `if records:` truthiness guard, `_fetch`, and the `try` block around
text extraction and `self.records[yr][u] = text` whose handler prints and
continues with the DataFrame unchanged.  Exceptions from `_query` and
`_fetch` are outside any handler and propagate. -/
def processUrl (qenv : QEnv) (fenv : FEnv) (extract : Extract)
    (idx : String) (df : PolarsDF) (u : String) : Except PyErr PolarsDF :=
  match query qenv u idx with
  | .error e => .error e
  | .ok none => .ok df
  | .ok (some records) =>
    if records.isEmpty then .ok df
    else
      match fetch fenv records with
      | .error e => .error e
      | .ok (none, _) => .ok df
      | .ok (some page, _) =>
        match (do
          let text ← extract page
          if text ≠ "" then dfSetitem df u text else .ok df :
            Except PyErr PolarsDF) with
        | .ok df2 => .ok df2
        | .error _ => .ok df

/-- The inner `for u in urls` loop of `build_records`, threading the
year's DataFrame. -/
def processUrls (qenv : QEnv) (fenv : FEnv) (extract : Extract)
    (idx : String) : List String → PolarsDF → Except PyErr PolarsDF
  | [], df => .ok df
  | u :: rest, df =>
    match processUrl qenv fenv extract idx df u with
    | .error e => .error e
    | .ok df2 => processUrls qenv fenv extract idx rest df2

/-- Operation `CCProxy.build_records`: for each selected `(year, index)` the year's
DataFrame starts empty and the URLs are processed in order; the resulting
year → DataFrame mapping is returned.  An exception escaping the inner
loop aborts the whole run. -/
def build_records (qenv : QEnv) (fenv : FEnv) (extract : Extract) :
    List (Int × String) → List String → Except PyErr (List (Int × PolarsDF))
  | [], _ => .ok []
  | (yr, idx) :: rest, urls =>
    match processUrls qenv fenv extract idx urls emptyDF with
    | .error e => .error e
    | .ok df =>
      match build_records qenv fenv extract rest urls with
      | .error e => .error e
      | .ok others => .ok ((yr, df) :: others)

/-! ## Per-candidate outcome predicates for `fetch` -/

/-- A candidate record that `fetch` abandons recoverably: its fields parse,
the range request answers (does not raise), and either the status is not
206 or the stream holds no response-type record (including a malformed
stream, whose caught error leaves the scan empty-handed). -/
def candFailsRecoverably (fenv : FEnv) (r : Obj) : Prop :=
  ∃ u b resp, candFields r = .ok (u, b) ∧ fenv u b = .ok resp ∧
    (resp.status_code ≠ 206 ∨ scanStream resp.records = none)

/-- A candidate record whose range request returns partial content with a
well-formed stream whose first response-type record carries `body`. -/
def candYields (fenv : FEnv) (r : Obj) (body : List Nat) : Prop :=
  ∃ u b resp, candFields r = .ok (u, b) ∧ fenv u b = .ok resp ∧
    resp.status_code = 206 ∧ scanStream resp.records = some body

/-- One recoverably-failing candidate contributes one logged request and
defers to the rest of the list. -/
lemma fetch_cons_fail (fenv : FEnv) (r : Obj) (rest : List Obj)
    (h : candFailsRecoverably fenv r) :
    ∃ req, fetch fenv (r :: rest) =
      (fetch fenv rest).map (fun p => (p.1, req :: p.2)) := by
  obtain ⟨u, b, resp, hcf, hfe, hfail⟩ := h
  refine ⟨(u, b), ?_⟩
  rcases hfail with h206 | hscan
  · simp only [fetch, hcf, hfe, if_neg h206]
    cases hrest : fetch fenv rest with
    | error e => simp [Except.map]
    | ok p => cases p with
      | mk res log => simp [Except.map]
  · by_cases h206 : resp.status_code = 206
    · simp only [fetch, hcf, hfe, if_pos h206, hscan]
      cases hrest : fetch fenv rest with
      | error e => simp [Except.map]
      | ok p => cases p with
        | mk res log => simp [Except.map]
    · simp only [fetch, hcf, hfe, if_neg h206]
      cases hrest : fetch fenv rest with
      | error e => simp [Except.map]
      | ok p => cases p with
        | mk res log => simp [Except.map]

/-- A prefix of recoverably-failing candidates contributes exactly one
logged request per candidate and otherwise defers to the suffix. -/
lemma fetch_append_fails (fenv : FEnv) (rest : List Obj) :
    ∀ pre : List Obj, (∀ r ∈ pre, candFailsRecoverably fenv r) →
      ∃ plog : List (String × String), plog.length = pre.length ∧
        fetch fenv (pre ++ rest) =
          (fetch fenv rest).map (fun p => (p.1, plog ++ p.2)) := by
  intro pre
  induction pre with
  | nil =>
    intro _
    refine ⟨[], rfl, ?_⟩
    cases hrest : fetch fenv rest with
    | error e => simp [Except.map, hrest]
    | ok p => cases p with
      | mk res log => simp [Except.map, hrest]
  | cons r pre ih =>
    intro h
    obtain ⟨plog, hlen, heq⟩ := ih (fun x hx => h x (List.mem_cons_of_mem r hx))
    obtain ⟨req, hreq⟩ := fetch_cons_fail fenv r (pre ++ rest)
      (h r (List.mem_cons_self r pre))
    refine ⟨req :: plog, by simp [hlen], ?_⟩
    rw [List.cons_append, hreq, heq]
    cases hrest : fetch fenv rest with
    | error e => simp [Except.map]
    | ok p => cases p with
      | mk res log => simp [Except.map]

/-- A candidate that yields a body makes `fetch` return at once with a
single logged request. -/
lemma fetch_cons_hit (fenv : FEnv) (r : Obj) (rest : List Obj)
    (body : List Nat) (h : candYields fenv r body) :
    ∃ req, fetch fenv (r :: rest) =
      .ok (some (pyDecodeIgnore body), [req]) := by
  obtain ⟨u, b, resp, hcf, hfe, h206, hscan⟩ := h
  exact ⟨(u, b), by simp only [fetch, hcf, hfe, if_pos h206, hscan]⟩

/-- A successful `candFields` certifies that all three keys are present and
both numeric fields parse. -/
lemma candFields_ok_fields (r : Obj) (v : String × String)
    (h : candFields r = .ok v) :
    (∃ s, lookupStr r ("offset") = some s ∧ isErr (pyToInt s) = false) ∧
    (∃ s, lookupStr r ("length") = some s ∧ isErr (pyToInt s) = false) ∧
    (∃ s, lookupStr r ("filename") = some s) := by
  simp only [candFields] at h
  cases h1 : pyGetItem r ("offset") with
  | error e => rw [h1] at h; simp at h
  | ok offS =>
    rw [h1] at h; dsimp only at h
    cases h2 : pyToInt offS with
    | error e => rw [h2] at h; simp at h
    | ok off =>
      rw [h2] at h; dsimp only at h
      cases h3 : pyGetItem r ("length") with
      | error e => rw [h3] at h; simp at h
      | ok lenS =>
        rw [h3] at h; dsimp only at h
        cases h4 : pyToInt lenS with
        | error e => rw [h4] at h; simp at h
        | ok len =>
          rw [h4] at h; dsimp only at h
          cases h5 : pyGetItem r ("filename") with
          | error e => rw [h5] at h; simp at h
          | ok fname =>
            exact ⟨⟨offS, pyGetItem_ok_iff.mp h1, by simp [isErr, h2]⟩,
              ⟨lenS, pyGetItem_ok_iff.mp h3, by simp [isErr, h4]⟩,
              ⟨fname, pyGetItem_ok_iff.mp h5⟩⟩

/-! ## Claim theorems about `fetch` -/

/-- Claim C4: for an ordered candidate list in which every candidate before
position K fails recoverably and the K-th yields a partial-content
response with a well-formed response-type record carrying `body`, `fetch`
returns that candidate's decoded body and issues exactly K byte-range
requests — none beyond the K-th candidate, whatever follows it. -/
theorem fetch_first_success (fenv : FEnv) (pre post : List Obj) (r : Obj)
    (body : List Nat)
    (h1 : ∀ x ∈ pre, candFailsRecoverably fenv x)
    (h2 : candYields fenv r body) :
    ∃ log, fetch fenv (pre ++ r :: post) =
        .ok (some (pyDecodeIgnore body), log) ∧
      log.length = pre.length + 1 := by
  obtain ⟨plog, hlen, heq⟩ := fetch_append_fails fenv (r :: post) pre h1
  obtain ⟨req, hreq⟩ := fetch_cons_hit fenv r post body h2
  refine ⟨plog ++ [req], ?_, by simp [hlen]⟩
  rw [heq, hreq]
  simp [Except.map]

/-- Witness for C4: two failing candidates, a third that yields the bytes
of "hello", and a fourth that is never requested; `fetch` returns "hello"
after exactly three requests. -/
def fenvW4 : FEnv := fun u _ =>
  if u = "https://data.commoncrawl.org/c.warc.gz" then
    .ok ⟨206, [⟨"request", [113]⟩, ⟨"response", [104, 101, 108, 108, 111]⟩],
      false⟩
  else if u = "https://data.commoncrawl.org/b.warc.gz" then
    .ok ⟨206, [⟨"metadata", [109]⟩], true⟩
  else .ok ⟨403, [], false⟩

/-- A candidate record pointing into container `f`. -/
def recOf (f : String) : Obj :=
  [("offset", "10"), ("length", "5"), ("filename", f)]

theorem fetch_first_success_witness :
    ∃ log, fetch fenvW4
        ([recOf ("a.warc.gz"), recOf ("b.warc.gz")] ++
          recOf ("c.warc.gz") :: [recOf ("d.warc.gz")]) =
        .ok (some (pyDecodeIgnore [104, 101, 108, 108, 111]), log) ∧
      log.length = [recOf ("a.warc.gz"), recOf ("b.warc.gz")].length + 1 :=
  fetch_first_success fenvW4 [recOf ("a.warc.gz"), recOf ("b.warc.gz")]
    [recOf ("d.warc.gz")] (recOf ("c.warc.gz")) [104, 101, 108, 108, 111]
    (by
      intro x hx
      simp only [List.mem_cons, List.not_mem_nil, or_false] at hx
      rcases hx with h | h
      · exact ⟨"https://data.commoncrawl.org/a.warc.gz", "bytes=10-14",
          ⟨403, [], false⟩, by rw [h]; decide, by decide, by decide⟩
      · exact ⟨"https://data.commoncrawl.org/b.warc.gz", "bytes=10-14",
          ⟨206, [⟨"metadata", [109]⟩], true⟩, by rw [h]; decide, by decide,
          by decide⟩)
    ⟨"https://data.commoncrawl.org/c.warc.gz", "bytes=10-14",
      ⟨206, [⟨"request", [113]⟩, ⟨"response", [104, 101, 108, 108, 111]⟩],
        false⟩, by decide, by decide, by decide, by decide⟩

/-- Claim C5: when every candidate fails recoverably — wrong status,
malformed container stream, or no response-type record — `fetch` attempts
all N candidates (one request each) and returns `None` without raising. -/
theorem fetch_exhausts_all (fenv : FEnv) (recs : List Obj)
    (h : ∀ r ∈ recs, candFailsRecoverably fenv r) :
    ∃ log, fetch fenv recs = .ok (none, log) ∧ log.length = recs.length := by
  obtain ⟨plog, hlen, heq⟩ := fetch_append_fails fenv [] recs h
  refine ⟨plog, ?_, hlen⟩
  rw [List.append_nil] at heq
  rw [heq]
  simp [fetch, Except.map]

/-- Witness for C5: three candidates — wrong status, malformed stream,
stream without a response record — yield `None` after three requests. -/
def fenvW5 : FEnv := fun u _ =>
  if u = "https://data.commoncrawl.org/b.warc.gz" then .ok ⟨206, [], true⟩
  else if u = "https://data.commoncrawl.org/c.warc.gz" then
    .ok ⟨206, [⟨"request", [113]⟩, ⟨"metadata", [109]⟩], false⟩
  else .ok ⟨200, [⟨"response", [104]⟩], false⟩

theorem fetch_exhausts_all_witness :
    ∃ log, fetch fenvW5
        [recOf ("a.warc.gz"), recOf ("b.warc.gz"), recOf ("c.warc.gz")] =
        .ok (none, log) ∧
      log.length =
        [recOf ("a.warc.gz"), recOf ("b.warc.gz"), recOf ("c.warc.gz")].length :=
  fetch_exhausts_all fenvW5
    [recOf ("a.warc.gz"), recOf ("b.warc.gz"), recOf ("c.warc.gz")]
    (by
      intro x hx
      simp only [List.mem_cons, List.not_mem_nil, or_false] at hx
      rcases hx with h | h | h
      · exact ⟨"https://data.commoncrawl.org/a.warc.gz", "bytes=10-14",
          ⟨200, [⟨"response", [104]⟩], false⟩, by rw [h]; decide, by decide, by decide⟩
      · exact ⟨"https://data.commoncrawl.org/b.warc.gz", "bytes=10-14",
          ⟨206, [], true⟩, by rw [h]; decide, by decide, by decide⟩
      · exact ⟨"https://data.commoncrawl.org/c.warc.gz", "bytes=10-14",
          ⟨206, [⟨"request", [113]⟩, ⟨"metadata", [109]⟩], false⟩, by rw [h]; decide,
          by decide, by decide⟩)

/-- Claim C10: a candidate record with a missing `offset`, `length` or
`filename` key, or a non-integer `offset` or `length`, makes `fetch`
raise once it is reached (all earlier candidates having failed
recoverably), instead of skipping it: the field accesses and `int`
conversions run before the per-candidate exception handler. -/
theorem fetch_malformed_candidate_raises (fenv : FEnv) (pre post : List Obj)
    (rbad : Obj)
    (h1 : ∀ x ∈ pre, candFailsRecoverably fenv x)
    (h2 : lookupStr rbad ("offset") = none ∨
      lookupStr rbad ("length") = none ∨
      lookupStr rbad ("filename") = none ∨
      (∃ s, lookupStr rbad ("offset") = some s ∧ isErr (pyToInt s) = true) ∨
      (∃ s, lookupStr rbad ("length") = some s ∧ isErr (pyToInt s) = true)) :
    isErr (fetch fenv (pre ++ rbad :: post)) = true := by
  obtain ⟨plog, _, heq⟩ := fetch_append_fails fenv (rbad :: post) pre h1
  rw [heq]
  cases hcf : candFields rbad with
  | ok v =>
    exfalso
    obtain ⟨⟨s1, hs1, he1⟩, ⟨s2, hs2, he2⟩, ⟨s3, hs3⟩⟩ :=
      candFields_ok_fields rbad v hcf
    rcases h2 with h | h | h | ⟨s, hs, he⟩ | ⟨s, hs, he⟩
    · rw [h] at hs1; exact Option.noConfusion hs1
    · rw [h] at hs2; exact Option.noConfusion hs2
    · rw [h] at hs3; exact Option.noConfusion hs3
    · rw [hs1] at hs; rw [Option.some_inj.mp hs] at he1
      rw [he1] at he; exact Bool.noConfusion he
    · rw [hs2] at hs; rw [Option.some_inj.mp hs] at he2
      rw [he2] at he; exact Bool.noConfusion he
  | error e => simp [fetch, hcf, Except.map, isErr]

/-- Witness for C10: one failing candidate, then a record whose `offset`
is not an integer; `fetch` raises. -/
theorem fetch_malformed_candidate_raises_witness :
    isErr (fetch fenvW5 ([recOf ("a.warc.gz")] ++
      [("offset", "12abc"), ("length", "5"), ("filename", "z.warc.gz")] ::
        [recOf ("c.warc.gz")])) = true :=
  fetch_malformed_candidate_raises fenvW5 [recOf ("a.warc.gz")]
    [recOf ("c.warc.gz")]
    [("offset", "12abc"), ("length", "5"), ("filename", "z.warc.gz")]
    (by
      intro x hx
      simp only [List.mem_cons, List.not_mem_nil, or_false] at hx
      rw [hx]
      exact ⟨"https://data.commoncrawl.org/a.warc.gz", "bytes=10-14",
        ⟨200, [⟨"response", [104]⟩], false⟩, by decide, by decide, by decide⟩)
    (by
      refine .inr (.inr (.inr (.inl ⟨"12abc", by decide, by decide⟩))))

/-! ## Claim C7: decoding of the returned body -/

/-- Storage oracle whose single candidate returns a 206 response whose
response-type record body is `a <invalid byte 0xFF> b`. -/
def fenvC7 : FEnv := fun _ _ =>
  .ok ⟨206, [⟨"response", [97, 255, 98]⟩], false⟩

/-- Counterexample to C7 as stated: on the body `[0x61, 0xFF, 0x62]` the
code returns `"ab"` — the invalid byte is dropped (`errors="ignore"`),
not replaced: the replace-decoding of the same body differs. -/
theorem fetch_decode_replace_counterexample :
    fetch fenvC7 [recOf ("e.warc.gz")] =
      .ok (some ("ab"),
        [("https://data.commoncrawl.org/e.warc.gz", "bytes=10-14")]) ∧
    specDecodeReplace [97, 255, 98] ≠ ("ab") := by decide

/-- Amended C7: the fetched body is decoded with invalid byte sequences
*dropped* (`errors="ignore"`), not rejected: a successful candidate's
body comes back as its ignore-decoding, on which an invalid lead byte
(0xF5–0xFF can never begin a UTF-8 sequence) vanishes, whereas the
replace-decoding the spec describes would substitute U+FFFD for it. -/
theorem fetch_decode_ignores_invalid (fenv : FEnv) (r : Obj)
    (body : List Nat) (b : Nat)
    (h : candYields fenv r body) (hb1 : 245 ≤ b) (hb2 : b ≤ 255) :
    (∃ log, fetch fenv [r] = .ok (some (pyDecodeIgnore body), log)) ∧
    pyDecodeIgnore [97, b, 98] = ("ab") ∧
    specDecodeReplace [97, b, 98] =
      String.mk [Char.ofNat 97, Char.ofNat 65533, Char.ofNat 98] := by
  refine ⟨?_, ?_, ?_⟩
  · obtain ⟨req, hreq⟩ := fetch_cons_hit fenv r [] body h
    exact ⟨[req], hreq⟩
  · interval_cases b <;> decide
  · interval_cases b <;> decide

theorem fetch_decode_ignores_invalid_witness :
    (∃ log, fetch fenvC7 [recOf ("e.warc.gz")] =
      .ok (some (pyDecodeIgnore [97, 255, 98]), log)) ∧
    pyDecodeIgnore [97, 255, 98] = ("ab") ∧
    specDecodeReplace [97, 255, 98] =
      String.mk [Char.ofNat 97, Char.ofNat 65533, Char.ofNat 98] :=
  fetch_decode_ignores_invalid fenvC7 (recOf ("e.warc.gz")) [97, 255, 98] 255
    ⟨"https://data.commoncrawl.org/e.warc.gz", "bytes=10-14",
      ⟨206, [⟨"response", [97, 255, 98]⟩], false⟩,
      by decide, by decide, by decide, by decide⟩
    (by decide) (by decide)

/-! ## Claim C1: fatality of catalog failures -/

/-- The repository's own configuration shape: August, years 2008-2024. -/
def cfgW : Config := ⟨"cc-demo/0.0.1", "08", 2008, 2025⟩

/-- A descriptor that would be selected for 2013 were the catalog read. -/
def descA : Obj :=
  [("id", "CC-MAIN-2013-20"), ("timegate", "2013-08-12/2013-08-26")]

/-- A second descriptor matching 2013, encountered later. -/
def descB : Obj :=
  [("id", "CC-MAIN-2013-48"), ("timegate", "2013-08-20/2013-09-02")]

/-- Counterexample to C1 as stated: a catalog response with a non-success
status (503) does *not* terminate the run — `_init_idxs` returns
normally with an empty selection (even though the catalog body held a
matching descriptor), exactly the silent continuation the claim rules
out.  Only a raised request exits. -/
theorem init_idxs_non_success_counterexample :
    init_idxs cfgW (.ok ⟨503, [descA]⟩) = .ok [] ∧
    init_idxs cfgW (.ok ⟨503, [descA]⟩) ≠ .exited 1 := by decide

/-- Amended C1: only an *unreachable* catalog endpoint (a raised request)
terminates the run, with exit status 1; a response with a non-success
HTTP status is not fatal — the operation silently continues and returns
an empty index selection. -/
theorem init_idxs_fatal_only_on_raise (cfg : Config) (resp : CollResp)
    (e : PyErr) (h : resp.status_code ≠ 200) :
    init_idxs cfg (.error e) = .exited 1 ∧
    init_idxs cfg (.ok resp) = .ok [] := by
  refine ⟨rfl, ?_⟩
  simp only [init_idxs, if_neg h]
  rfl

theorem init_idxs_fatal_only_on_raise_witness :
    init_idxs cfgW (.error (.connectionError ("refused"))) = .exited 1 ∧
    init_idxs cfgW (.ok ⟨503, [descA]⟩) = .ok [] :=
  init_idxs_fatal_only_on_raise cfgW ⟨503, [descA]⟩
    (.connectionError ("refused")) (by decide)

/-! ## Claim C6: index-lookup error handling -/

/-- Lookup oracle answering 200 with one well-formed metadata line followed
by one malformed line. -/
def qenvC6 : QEnv := fun _ =>
  .ok ⟨200, "\x7b\"urlkey\": \"org,example\"\x7d\nnotjson"⟩

/-- Counterexample to C6 as stated: a single malformed metadata line in a
200 response makes the whole lookup raise `ValueError` (from
`json.loads` in the list comprehension) instead of being tolerated. -/
theorem query_malformed_line_counterexample :
    query qenvC6 ("https://example.org") ("CC-MAIN-2024-33") =
      .error (.valueError ("Expecting value")) := by decide

/-- A line that fails to parse makes the whole comprehension raise. -/
lemma parseLines_isErr (lines : List String) (bad : String)
    (hmem : bad ∈ lines) (hbad : isErr (jsonLoads bad) = true) :
    isErr (parseLines lines) = true := by
  induction lines with
  | nil => cases hmem
  | cons l rest ih =>
    cases hl : jsonLoads l with
    | error e => simp [parseLines, hl, isErr]
    | ok obj =>
      rcases List.mem_cons.mp hmem with h | h
      · rw [h] at hbad; rw [hl] at hbad; simp [isErr] at hbad
      · have hrest := ih h
        simp only [parseLines, hl]
        cases hr : parseLines rest with
        | error e => simp [isErr]
        | ok objs => rw [hr] at hrest; simp [isErr] at hrest

/-- Amended C6: a non-success lookup status yields `None` (an empty
result, no exception), so an index without matches is tolerated when
signalled that way; but a malformed metadata line in a 200 response
aborts the whole lookup with an exception rather than being skipped. -/
theorem query_error_model (env1 env2 : QEnv) (url idx : String)
    (resp1 resp2 : QResp) (bad : String)
    (h1 : env1 (indexUrl url idx) = .ok resp1)
    (h2 : resp1.status_code ≠ 200)
    (h3 : env2 (indexUrl url idx) = .ok resp2)
    (h4 : resp2.status_code = 200)
    (h5 : bad ∈ pySplit (pyStrip resp2.text) ('\n'))
    (h6 : isErr (jsonLoads bad) = true) :
    query env1 url idx = .ok none ∧ isErr (query env2 url idx) = true := by
  constructor
  · simp only [query, h1, if_neg h2]
  · simp only [query, h3, if_pos h4]
    have herr := parseLines_isErr _ bad h5 h6
    cases hp : parseLines (pySplit (pyStrip resp2.text) ('\n')) with
    | error e => simp [isErr]
    | ok objs => rw [hp] at herr; simp [isErr] at herr

theorem query_error_model_witness :
    query (fun _ => .ok ⟨404, ("")⟩) ("https://example.org")
        ("CC-MAIN-2024-33") = .ok none ∧
    isErr (query qenvC6 ("https://example.org") ("CC-MAIN-2024-33")) =
      true :=
  query_error_model (fun _ => .ok ⟨404, ("")⟩) qenvC6
    ("https://example.org") ("CC-MAIN-2024-33") ⟨404, ("")⟩
    ⟨200, "\x7b\"urlkey\": \"org,example\"\x7d\nnotjson"⟩ ("notjson")
    rfl (by decide) rfl (by decide) (by decide) (by decide)

/-! ## Claims C2 and C3: the orchestrator -/

/-- Lookup oracle answering 200 with one well-formed metadata line. -/
def qenvOK : QEnv := fun _ =>
  .ok ⟨200,
    "\x7b\"offset\": \"10\", \"length\": \"5\", \"filename\": \"f.warc.gz\"\x7d"⟩

/-- Storage oracle answering 206 with a response record carrying "hello". -/
def fenvOK : FEnv := fun _ _ =>
  .ok ⟨206, [⟨"response", [104, 101, 108, 108, 111]⟩], false⟩

/-- Text extractor that returns the page unchanged (non-empty here). -/
def extractId : Extract := fun s => .ok s

/-- Claim C2 (code bug): on a run where every stage succeeds — the lookup
returns a capture record, the fetch returns the page "hello", and
extraction returns the non-empty text "hello" — the year's result set
still ends up with *zero* rows: `self.records[yr][u] = text` is a
column-style DataFrame assignment, which polars rejects with
`TypeError` (swallowed by the surrounding handler), not an append of a
`(url, content)` row, contradicting the method's own documentation
("Populates self.records with DataFrames containing URL and content
pairs") and `save()`'s documented `["url", "content"]` schema. -/
theorem build_records_never_appends :
    query qenvOK ("https://example.org") ("CC-MAIN-2013-20") =
      .ok (some [[("offset", "10"), ("length", "5"),
        ("filename", "f.warc.gz")]]) ∧
    fetch fenvOK
        [[("offset", "10"), ("length", "5"), ("filename", "f.warc.gz")]] =
      .ok (some ("hello"),
        [("https://data.commoncrawl.org/f.warc.gz", "bytes=10-14")]) ∧
    extractId ("hello") = .ok ("hello") ∧
    build_records qenvOK fenvOK extractId [(2013, "CC-MAIN-2013-20")]
        ["https://example.org"] =
      .ok [(2013, emptyDF)] ∧
    emptyDF.rows = [] := by decide

/-- Lookup oracle whose request raises (connection refused). -/
def qenvRefuse : QEnv := fun _ => .error (.connectionError ("refused"))

/-- Counterexample to C3 as stated: a failure raised at the locate step
for the first URL is *not* confined to that URL — `build_records` has no
handler around `_query`, so the exception aborts the whole run; the
second URL is never processed and no year produces a result set. -/
theorem build_records_locate_error_counterexample :
    build_records qenvRefuse fenvOK extractId [(2013, "CC-MAIN-2013-20")]
      ["https://a.example", "https://b.example"] =
    .error (.connectionError ("refused")) := by decide

/-- Amended C3: exceptions raised at the locate step (`_query`) or the
fetch step (`_fetch`) propagate out of `build_records` and abort the
whole run — they are not confined to the URL; only failures inside the
extraction/storage `try` block are confined. -/
theorem build_records_step_error_aborts (qenv : QEnv) (fenv : FEnv)
    (extract : Extract) (yr : Int) (idx : String)
    (years : List (Int × String)) (urls : List String) (u : String)
    (e : PyErr)
    (h : query qenv u idx = .error e ∨
      ∃ recs, query qenv u idx = .ok (some recs) ∧ recs ≠ [] ∧
        fetch fenv recs = .error e) :
    build_records qenv fenv extract ((yr, idx) :: years) (u :: urls) =
      .error e := by
  have hp : processUrl qenv fenv extract idx emptyDF u = .error e := by
    rcases h with h | ⟨recs, hq, hne, hf⟩
    · simp [processUrl, h]
    · have hne' : recs.isEmpty = false := by
        cases recs with
        | nil => exact absurd rfl hne
        | cons a l => rfl
      simp [processUrl, hq, hne', hf]
  simp [build_records, processUrls, hp]

theorem build_records_step_error_aborts_witness :
    build_records qenvRefuse fenvOK extractId [(2014, "CC-MAIN-2014-35")]
      ["https://c.example"] = .error (.connectionError ("refused")) :=
  build_records_step_error_aborts qenvRefuse fenvOK extractId 2014
    ("CC-MAIN-2014-35") [] [] ("https://c.example")
    (.connectionError ("refused")) (.inl (by decide))

/-! ## Claims C8 and C9: index selection -/

/-- First-defined-wins choice on options (how a Python dict lookup relates
to an earlier binding). -/
def optOr (a b : Option String) : Option String :=
  match a with
  | some v => some v
  | none => b

lemma optOr_none (a : Option String) : optOr a none = a := by
  cases a <;> rfl

lemma lookupA_cons (a : Int) (b : String) (l : List (Int × String))
    (y : Int) :
    lookupA ((a, b) :: l) y = if a = y then some b else lookupA l y := by
  simp only [lookupA, List.find?]
  by_cases h : a = y
  · simp [h]
  · have hb : (a == y) = false := beq_eq_false_iff_ne.mpr h
    simp [hb, h]

lemma lookupA_append_one (acc : List (Int × String)) (yr : Int)
    (id0 : String) (y : Int) :
    lookupA (acc ++ [(yr, id0)]) y =
      optOr (lookupA acc y) (if yr = y then some id0 else none) := by
  induction acc with
  | nil =>
    simp only [List.nil_append]
    rw [lookupA_cons]
    by_cases h : yr = y
    · rw [if_pos h, if_pos h]; rfl
    · rw [if_neg h, if_neg h]; rfl
  | cons p rest ih =>
    obtain ⟨a, b⟩ := p
    simp only [List.cons_append]
    rw [lookupA_cons, lookupA_cons]
    by_cases h : a = y
    · rw [if_pos h, if_pos h]; rfl
    · rw [if_neg h, if_neg h]; exact ih

lemma lookupA_none_iff (l : List (Int × String)) (y : Int) :
    lookupA l y = none ↔ y ∉ l.map Prod.fst := by
  induction l with
  | nil => simp [lookupA, List.find?]
  | cons p rest ih =>
    obtain ⟨a, b⟩ := p
    rw [lookupA_cons]
    by_cases h : a = y
    · simp [h]
    · simp only [List.map_cons, List.mem_cons, not_or, if_neg h, ih]
      constructor
      · exact fun hl => ⟨fun hy => h hy.symm, hl⟩
      · exact fun hl => hl.2

/-- The claim's selection criterion, stated from the spec's words: a
descriptor matches year `y` when its coverage-window start timestamp is
long enough, its parsed month equals the target month, and its parsed
year is `y` and lies in the configured range. -/
def specMatches (cfg : Config) (c : Obj) (y : Int) : Bool :=
  match lookupStr c ("timegate") with
  | none => false
  | some tg =>
    let sd := (pySplit tg ('/')).headD ("")
    if 7 ≤ sd.length then
      match pyToInt ((sd.take 7).take 4) with
      | .ok year =>
        ((sd.take 7).drop 5 == cfg.target_month) && inRange cfg year &&
          (year == y)
      | .error _ => false
    else false

/-- The claim's expected selection, stated from the spec's words: the id
of the *first* descriptor encountered that matches year `y`. -/
def specFirstMatchId (cfg : Config) : List Obj → Int → Option String
  | [], _ => none
  | c :: rest, y =>
    if specMatches cfg c y then lookupStr c ("id")
    else specFirstMatchId cfg rest y

/-- Correctness of the selection loop against the spec-side description:
an accumulator entry wins over the descriptors, otherwise the first
matching descriptor's id is selected; and distinct years stay distinct. -/
lemma selectLoop_spec (cfg : Config) :
    ∀ (descs : List Obj) (acc sel : List (Int × String)),
      selectLoop cfg descs acc = .ok sel →
      ((acc.map Prod.fst).Nodup → (sel.map Prod.fst).Nodup) ∧
      ∀ y, lookupA sel y =
        optOr (lookupA acc y) (specFirstMatchId cfg descs y) := by
  intro descs
  induction descs with
  | nil =>
    intro acc sel h
    simp only [selectLoop] at h
    injection h with h
    subst h
    exact ⟨fun hn => hn, fun y => (optOr_none (lookupA acc y)).symm⟩
  | cons c rest ih =>
    intro acc sel h
    simp only [selectLoop] at h
    cases hs : selectStep cfg c acc with
    | error e => rw [hs] at h; simp at h
    | ok acc2 =>
      rw [hs] at h
      dsimp only at h
      obtain ⟨ihn, ihl⟩ := ih acc2 sel h
      delta selectStep at hs
      cases hid : pyGetItem c ("id") with
      | error e => rw [hid] at hs; simp at hs
      | ok id0 =>
        rw [hid] at hs
        dsimp only at hs
        cases htg : lookupStr c ("timegate") with
        | none =>
          rw [htg] at hs
          dsimp only at hs
          injection hs with hs
          subst hs
          have hsm : ∀ z, specMatches cfg c z = false := by
            intro z
            delta specMatches
            rw [htg]
          refine ⟨ihn, fun y => ?_⟩
          rw [ihl y]
          simp [specFirstMatchId, hsm]
        | some tg =>
          rw [htg] at hs
          dsimp only at hs
          by_cases hlen : 7 ≤ ((pySplit tg ('/')).headD ("")).length
          · rw [if_pos hlen] at hs
            cases hyi :
                pyToInt ((((pySplit tg ('/')).headD ("")).take 7).take 4) with
            | error e => rw [hyi] at hs; simp at hs
            | ok year =>
              rw [hyi] at hs
              dsimp only at hs
              have hsm : ∀ z, specMatches cfg c z =
                  (((((pySplit tg ('/')).headD ("")).take 7).drop 5 ==
                      cfg.target_month) && inRange cfg year &&
                    (year == z)) := by
                intro z
                delta specMatches
                rw [htg]
                dsimp only
                rw [if_pos hlen, hyi]
              by_cases hcond :
                  (((((pySplit tg ('/')).headD ("")).take 7).drop 5 ==
                    cfg.target_month) && inRange cfg year &&
                    (lookupA acc year).isNone) = true
              · rw [if_pos hcond] at hs
                injection hs with hs
                subst hs
                have hcond' := hcond
                rw [Bool.and_eq_true, Bool.and_eq_true] at hcond'
                obtain ⟨⟨hm, hr⟩, hn⟩ := hcond'
                have hnone : lookupA acc year = none :=
                  Option.isNone_iff_eq_none.mp hn
                constructor
                · intro haccn
                  apply ihn
                  rw [List.map_append, List.nodup_append]
                  refine ⟨haccn, List.nodup_singleton year, ?_⟩
                  intro a ha hb
                  simp only [List.map_cons, List.map_nil,
                    List.mem_singleton] at hb
                  subst hb
                  exact (lookupA_none_iff acc a).mp hnone ha
                · intro y
                  rw [ihl y, lookupA_append_one]
                  by_cases hy : y = year
                  · subst hy
                    rw [hnone]
                    have hsme : specMatches cfg c y = true := by
                      rw [hsm y, hm, hr]
                      simp
                    simp [specFirstMatchId, hsme, optOr,
                      pyGetItem_ok_iff.mp hid]
                  · rw [if_neg (fun hh => hy hh.symm), optOr_none]
                    have hsme : specMatches cfg c y = false := by
                      rw [hsm y]
                      have hb : (year == y) = false :=
                        beq_eq_false_iff_ne.mpr (fun hh => hy hh.symm)
                      rw [hb]
                      simp
                    simp [specFirstMatchId, hsme]
              · rw [if_neg hcond] at hs
                injection hs with hs
                subst hs
                refine ⟨ihn, fun y => ?_⟩
                rw [ihl y]
                cases hacc : lookupA acc y with
                | some v => simp [optOr]
                | none =>
                  simp only [optOr]
                  have hsme : specMatches cfg c y = false := by
                    rw [hsm y]
                    by_cases hy : year = y
                    · subst hy
                      cases hmb :
                          ((((pySplit tg ('/')).headD ("")).take 7).drop 5
                            == cfg.target_month) with
                      | false => simp
                      | true =>
                        cases hrb : inRange cfg year with
                        | false => simp [hrb]
                        | true =>
                          exfalso
                          apply hcond
                          rw [hmb, hrb]
                          have hin : (lookupA acc year).isNone = true := by
                            rw [hacc]; rfl
                          rw [hin]
                          rfl
                    · have hb : (year == y) = false :=
                        beq_eq_false_iff_ne.mpr hy
                      rw [hb]
                      simp
                  simp [specFirstMatchId, hsme]
          · rw [if_neg hlen] at hs
            injection hs with hs
            subst hs
            have hsm : ∀ z, specMatches cfg c z = false := by
              intro z
              delta specMatches
              rw [htg]
              dsimp only
              rw [if_neg hlen]
            refine ⟨ihn, fun y => ?_⟩
            rw [ihl y]
            simp [specFirstMatchId, hsm]

/-- Claim C8: whenever `_init_idxs` returns a selection from a 200
catalog response, every selected year maps to exactly one index id —
that of the *first* descriptor encountered whose parsed month equals the
target month and whose parsed year is that year in range; later matching
descriptors are discarded. -/
theorem init_idxs_first_match_wins (cfg : Config) (resp : CollResp)
    (sel : List (Int × String))
    (h200 : resp.status_code = 200)
    (h : init_idxs cfg (.ok resp) = .ok sel) :
    (sel.map Prod.fst).Nodup ∧
    ∀ y, lookupA sel y = specFirstMatchId cfg resp.body y := by
  have hsel : selectLoop cfg resp.body [] = .ok sel := by
    delta init_idxs at h
    dsimp only at h
    rw [if_pos h200] at h
    cases hs : selectLoop cfg resp.body [] with
    | ok s =>
      rw [hs] at h
      dsimp only at h
      injection h with h
      rw [← h]
    | error e => rw [hs] at h; simp at h
  obtain ⟨hn, hl⟩ := selectLoop_spec cfg resp.body [] sel hsel
  refine ⟨hn (by simp), fun y => ?_⟩
  rw [hl y]
  rfl

theorem init_idxs_first_match_wins_witness :
    lookupA [(2013, ("CC-MAIN-2013-20"))] 2013 =
      specFirstMatchId cfgW [descA, descB] 2013 :=
  (init_idxs_first_match_wins cfgW ⟨200, [descA, descB]⟩
    [(2013, ("CC-MAIN-2013-20"))] rfl (by decide)).2 2013

/-- A descriptor whose start timestamp is shorter than 7 characters makes
one loop iteration a no-op (given its `id` is present, as every
descriptor of the catalog's data model carries one). -/
lemma selectStep_short (cfg : Config) (d : Obj) (id0 tg : String)
    (acc : List (Int × String))
    (hid : lookupStr d ("id") = some id0)
    (htg : lookupStr d ("timegate") = some tg)
    (hshort : ((pySplit tg ('/')).headD ("")).length < 7) :
    selectStep cfg d acc = .ok acc := by
  delta selectStep
  rw [pyGetItem_ok_iff.mpr hid]
  dsimp only
  rw [htg]
  dsimp only
  rw [if_neg (Nat.not_le.mpr hshort)]

/-- Removing a short-timestamp descriptor anywhere in the catalog leaves
the selection loop's outcome unchanged. -/
lemma selectLoop_skip (cfg : Config) (d : Obj) (id0 tg : String)
    (post : List Obj)
    (hid : lookupStr d ("id") = some id0)
    (htg : lookupStr d ("timegate") = some tg)
    (hshort : ((pySplit tg ('/')).headD ("")).length < 7) :
    ∀ (pre : List Obj) (acc : List (Int × String)),
      selectLoop cfg (pre ++ d :: post) acc =
        selectLoop cfg (pre ++ post) acc := by
  intro pre
  induction pre with
  | nil =>
    intro acc
    simp only [List.nil_append, selectLoop]
    rw [selectStep_short cfg d id0 tg acc hid htg hshort]
  | cons c pre ih =>
    intro acc
    simp only [List.cons_append, selectLoop]
    cases hs : selectStep cfg c acc with
    | error e => rfl
    | ok acc2 =>
      dsimp only
      exact ih acc2

/-- Claim C9: a descriptor whose coverage-window start timestamp string is
shorter than 7 characters is skipped by the resolve operation without
raising and without being selected for any year: both the selection loop
and `_init_idxs` behave exactly as if the descriptor were absent. -/
theorem init_idxs_skips_short_timestamp (cfg : Config)
    (pre post : List Obj) (d : Obj) (id0 tg : String)
    (acc : List (Int × String))
    (hid : lookupStr d ("id") = some id0)
    (htg : lookupStr d ("timegate") = some tg)
    (hshort : ((pySplit tg ('/')).headD ("")).length < 7) :
    selectLoop cfg (pre ++ d :: post) acc =
      selectLoop cfg (pre ++ post) acc ∧
    init_idxs cfg (.ok ⟨200, pre ++ d :: post⟩) =
      init_idxs cfg (.ok ⟨200, pre ++ post⟩) := by
  have hskip := selectLoop_skip cfg d id0 tg post hid htg hshort
  refine ⟨hskip pre acc, ?_⟩
  have h1 : init_idxs cfg (.ok ⟨200, pre ++ d :: post⟩) =
      (match selectLoop cfg (pre ++ d :: post) [] with
        | .ok idxs => InitResult.ok idxs
        | .error e => InitResult.raised e) := rfl
  have h2 : init_idxs cfg (.ok ⟨200, pre ++ post⟩) =
      (match selectLoop cfg (pre ++ post) [] with
        | .ok idxs => InitResult.ok idxs
        | .error e => InitResult.raised e) := rfl
  rw [h1, h2, hskip pre []]

/-- A descriptor whose start timestamp ("2013/x" gives "2013", length 4)
is too short to carry a month. -/
def descShort : Obj := [("id", "CC-SHORT"), ("timegate", "2013/x")]

theorem init_idxs_skips_short_timestamp_witness :
    selectLoop cfgW ([descA] ++ descShort :: [descB]) [] =
      selectLoop cfgW ([descA] ++ [descB]) [] ∧
    init_idxs cfgW (.ok ⟨200, [descA] ++ descShort :: [descB]⟩) =
      init_idxs cfgW (.ok ⟨200, [descA] ++ [descB]⟩) :=
  init_idxs_skips_short_timestamp cfgW [descA] [descB] descShort
    ("CC-SHORT") ("2013/x") [] (by decide) (by decide) (by decide)

end CC
